import Mathlib

/-!
Verification of the transport scheduling and itinerary engine of the
doc-fyt repository (`fyt/transport/models.py` and the directions client
`transport/maps.py`), embedded shallowly in Lean.

Conventions of the embedding:
* Times of day and datetimes are integers counting minutes
  (07:30 = 450, 11:00 = 660); `timedelta` durations are integer minutes.
* Django model (pk-based) equality of stops is `Stop.id` equality.
* Database writes become pure state transformations of a `Bus` value.
* The external Google Maps call is a parameter: either an error
  (`Except.error`, the `MapError` raised by `get_directions`) or a
  duration oracle giving each leg's travel time.
-/

namespace Transport

/-- A transport stop (`Stop` model): pk, address, coordinates and the
rough distance from Hanover used for ordering. -/
structure Stop where
  id : Nat
  address : String
  lat_lng : String
  distance : Nat
deriving DecidableEq, Repr

/-- `Stop.location`: coordinates are preferred when available, otherwise
the plain-text address (Python `self.lat_lng or self.address`). -/
def Stop.location (s : Stop) : String :=
  if s.lat_lng ≠ "" then s.lat_lng else s.address

/-- `maps._split_stops`: project an ordered route of stops to
`(origin, waypoints, destination)` location strings. -/
def split_stops (stops : List Stop) : String × List String × String :=
  let addrs := stops.map Stop.location
  (addrs.headD "", (addrs.drop 1).dropLast, addrs.getLastD "")

/-- The comparison key of `sort_by_distance`: `lambda x: x.distance`. -/
def distLE (a b : Stop) : Prop := a.distance ≤ b.distance

instance : DecidableRel distLE := fun _ _ => Nat.decLe _ _

instance : IsTotal Stop distLE := ⟨fun _ _ => Nat.le_total _ _⟩

instance : IsTrans Stop distLE := ⟨fun _ _ _ => Nat.le_trans⟩

/-- `sort_by_distance`: Python's stable `sorted` with key
`lambda x: x.distance`, embedded as a stable insertion sort. -/
def sort_by_distance (stops : List Stop) : List Stop :=
  List.insertionSort distLE stops

/-- A `Trip` (the transported obligation): pk, group size, and the
template's dropoff and pickup stops. -/
structure Trip where
  id : Nat
  size : Nat
  dropoff_stop : Stop
  pickup_stop : Stop
deriving DecidableEq, Repr

/-- `StopOrder.stop_type`: PICKUP or DROPOFF. -/
inductive StopType where
  | PICKUP
  | DROPOFF
deriving DecidableEq, Repr

/-- A `StopOrder` row: the (bus, trip, role) scheduling entry with its
position key and computed/custom times. -/
structure StopOrder where
  trip : Trip
  stop_type : StopType
  order : Nat
  computed_time : Option Int
  custom_time : Option Int
deriving DecidableEq, Repr

def StopOrder.is_pickup (so : StopOrder) : Bool :=
  so.stop_type == StopType.PICKUP

def StopOrder.is_dropoff (so : StopOrder) : Bool :=
  so.stop_type == StopType.DROPOFF

/-- `StopOrder.stop`: the trip-template stop matching the role. -/
def StopOrder.stop (so : StopOrder) : Stop :=
  match so.stop_type with
  | StopType.DROPOFF => so.trip.dropoff_stop
  | StopType.PICKUP => so.trip.pickup_stop

/-- The state of one `InternalBus` together with the query results its
methods read: the trips dropped off / picked up / returned
(`dropping_off()`, `picking_up()`, `returning()`), the configured
Hanover and Lodge anchor stops, the bus's `stoporder_set` (already in
`Meta.ordering = ['order']` order), the route vehicle's capacity and
the `dirty` / `use_custom_times` flags. -/
structure Bus where
  dropping_off : List Trip
  picking_up : List Trip
  returning : List Trip
  hanover : Stop
  lodge : Stop
  stoporders : List StopOrder
  capacity : Nat
  dirty : Bool
  use_custom_times : Bool
deriving DecidableEq, Repr

/-- A stop of `all_stops` with the `trips_picked_up` and
`trips_dropped_off` attributes the source attaches to it. -/
structure StopVisit where
  stop : Stop
  trips_picked_up : List Trip
  trips_dropped_off : List Trip
deriving DecidableEq, Repr

/-- Accumulating loop of `groupRuns`: `s` is the key of the current
run and `acc` its members so far, in reverse. -/
def groupRunsGo (s : Stop) (acc : List StopOrder) :
    List StopOrder → List (Stop × List StopOrder)
  | [] => [(s, acc.reverse)]
  | so :: rest =>
    if so.stop.id == s.id then groupRunsGo s (so :: acc) rest
    else (s, acc.reverse) :: groupRunsGo so.stop [so] rest

/-- `itertools.groupby(stoporder_set, key=lambda so: so.stop)`:
group consecutive stop orders sharing a stop (pk equality); the key of
a run is the first member's stop. -/
def groupRuns : List StopOrder → List (Stop × List StopOrder)
  | [] => []
  | so :: rest => groupRunsGo so.stop [so] rest

/-- `InternalBus.visits_lodge`: truthiness of
`self.trip_cache.pickups or self.trip_cache.returns`. -/
def Bus.visits_lodge (bus : Bus) : Bool :=
  !bus.picking_up.isEmpty || !bus.returning.isEmpty

/-- `InternalBus.all_stops`: the grouped intermediate stops in
stop-order sequence, preceded by a synthetic Hanover visit loading
every dropped-off trip, followed by the Lodge when the bus visits it
and by a final Hanover visit when there are returning trips. -/
def Bus.all_stops (bus : Bus) : List StopVisit :=
  let mids := (groupRuns bus.stoporders).map fun g =>
    { stop := g.1
      trips_picked_up := ((g.2.filter StopOrder.is_pickup).map StopOrder.trip)
      trips_dropped_off := ((g.2.filter StopOrder.is_dropoff).map StopOrder.trip) }
  let stops := { stop := bus.hanover
                 trips_picked_up := bus.dropping_off
                 trips_dropped_off := [] } :: mids
  let stops := if bus.visits_lodge then
      stops ++ [{ stop := bus.lodge
                  trips_picked_up := bus.returning
                  trips_dropped_off := bus.picking_up }]
    else stops
  if bus.returning.isEmpty then stops
  else stops ++ [{ stop := bus.hanover
                   trips_picked_up := []
                   trips_dropped_off := bus.returning }]

/-- One leg of a directions response after `_integrate_stops`: the
bracketing stops (with their attached trip lists), the provider-given
travel duration, and the start/end times stamped by
`update_stop_times` (absent until assigned). -/
structure Leg where
  start_stop : StopVisit
  end_stop : StopVisit
  duration : Int
  start_time : Option Int
  end_time : Option Int
deriving DecidableEq, Repr

/-- Legs between consecutive stops, with durations supplied by the
provider oracle `dur`; times are not yet assigned. -/
def consecLegs (dur : Stop → Stop → Int) : List StopVisit → List Leg
  | a :: b :: rest =>
    { start_stop := a, end_stop := b, duration := dur a.stop b.stop
      start_time := none, end_time := none } :: consecLegs dur (b :: rest)
  | _ => []

/-- `InternalBus.directions`: the provider legs over `all_stops`
(successful `get_directions(self.all_stops)` call). -/
def Bus.directions (bus : Bus) (dur : Stop → Stop → Int) : List Leg :=
  consecLegs dur bus.all_stops

/-- Default departure from Hanover, 07:30, in minutes. -/
def DEPARTURE_TIME : Int := 450

/-- Earliest allowed Lodge arrival, 11:00, in minutes. -/
def MIN_LODGE_ARRIVAL_TIME : Int := 660

/-- `InternalBus.LOADING_TIME`: 15 minutes to load and unload trips. -/
def LOADING_TIME : Int := 15

/-- `takewhile(lambda leg: leg.start_stop != lodge, legs)`: the legs
before the Lodge (pk comparison with the Lodge stop). -/
def legsToLodge (bus : Bus) (legs : List Leg) : List Leg :=
  legs.takeWhile (fun leg => !(leg.start_stop.stop.id == bus.lodge.id))

/-- `travel_time`: sum of leg durations. -/
def travel_time (legs : List Leg) : Int :=
  (legs.map Leg.duration).sum

/-- `loading_time`: `(len(legs_to_lodge) - 1) * LOADING_TIME`
(Python integer arithmetic, so an empty list gives `-LOADING_TIME`). -/
def loading_time (legs : List Leg) : Int :=
  ((legs.length : Int) - 1) * LOADING_TIME

/-- `total_duration = travel_time + loading_time`. -/
def total_duration (legs : List Leg) : Int :=
  travel_time legs + loading_time legs

/-- `InternalBus.get_departure_time`: leave at 07:30, back-calculated so
that a bus visiting the Lodge does not arrive there before 11:00. -/
def Bus.get_departure_time (bus : Bus) (dur : Stop → Stop → Int) : Int :=
  let legs := legsToLodge bus (bus.directions dur)
  let too_early := DEPARTURE_TIME + total_duration legs < MIN_LODGE_ARRIVAL_TIME
  if bus.visits_lodge && too_early then
    MIN_LODGE_ARRIVAL_TIME - total_duration legs
  else
    DEPARTURE_TIME

/-- Net passenger load contributed by one stop: picked-up trip sizes
added, dropped-off trip sizes subtracted. -/
def stopLoadDelta (v : StopVisit) : Int :=
  ((v.trips_picked_up.map fun t => (t.size : Int)).sum) -
    ((v.trips_dropped_off.map fun t => (t.size : Int)).sum)

/-- The loop of `InternalBus.over_capacity`: update the load at each
stop (pickups added, then dropoffs subtracted) and return `true` as
soon as the load exceeds the capacity. -/
def overCapacityGo (capacity : Nat) (load : Int) : List StopVisit → Bool
  | [] => false
  | v :: rest =>
    let load := load + stopLoadDelta v
    if load > (capacity : Int) then true else overCapacityGo capacity load rest

/-- `InternalBus.over_capacity`: walk `all_stops` accumulating load,
starting from zero. -/
def Bus.over_capacity (bus : Bus) : Bool :=
  overCapacityGo bus.capacity 0 bus.all_stops

/-- `datetime.time()`: the time-of-day component of a datetime counted
in minutes. -/
def timeOfDay (t : Int) : Int := t % 1440

/-- `trip.get_pickup_stoporder() / get_dropoff_stoporder()` followed by
`stoporder.computed_time = v; stoporder.save()`: write the computed
time of the bus's stop order for `(trip, role)`. -/
def setComputed (orders : List StopOrder) (t : Trip) (ty : StopType) (v : Option Int) :
    List StopOrder :=
  orders.map fun so =>
    if so.trip.id == t.id && so.stop_type == ty then { so with computed_time := v } else so

/-- `t.get_pickup_stoporder().custom_time` for a trip on this bus. -/
def getCustomTime (orders : List StopOrder) (t : Trip) : Option Int :=
  match orders.find? (fun so => so.trip.id == t.id && so.stop_type == StopType.PICKUP) with
  | some so => so.custom_time
  | none => none

/-- Mutable state of the `update_stop_times` loop: the stop orders so
far written, the legs stamped so far and the running `progress`
datetime. -/
structure WalkState where
  orders : List StopOrder
  legs_out : List Leg
  progress : Int
deriving Repr

/-- One iteration of the `update_stop_times` loop over a leg before the
Lodge: stamp pickups at the start stop and add a loading period (unless
starting from Hanover), stamp the leg's bracketing times (or, under
`use_custom_times`, copy the unique custom time of the start stop's
pickups — the source `assert len(custom_times) <= 1` becomes an
error), then stamp dropoffs at the end stop (unless it is the Lodge). -/
def stepLeg (bus : Bus) (st : WalkState) (leg : Leg) : Except String WalkState := do
  let (orders, progress) :=
    if leg.start_stop.stop.id == bus.hanover.id then
      (st.orders, st.progress)
    else
      (leg.start_stop.trips_picked_up.foldl
        (fun os t => setComputed os t StopType.PICKUP (some (timeOfDay st.progress)))
        st.orders,
       st.progress + LOADING_TIME)
  let (leg, progress) ←
    if bus.use_custom_times then do
      let leg ←
        if leg.start_stop.stop.id == bus.hanover.id then pure leg
        else do
          let custom_times := (leg.start_stop.trips_picked_up.map (getCustomTime orders)).dedup
          match custom_times with
          | [] => pure leg
          | [c] => pure { leg with start_time := c }
          | _ => Except.error "AssertionError: conflicting custom times"
      pure (leg, progress + leg.duration)
    else
      pure ({ leg with
                start_time := some (timeOfDay progress)
                end_time := some (timeOfDay (progress + leg.duration)) },
            progress + leg.duration)
  let orders :=
    if leg.end_stop.stop.id == bus.lodge.id then orders
    else
      leg.end_stop.trips_dropped_off.foldl
        (fun os t => setComputed os t StopType.DROPOFF (some (timeOfDay progress)))
        orders
  pure ⟨orders, st.legs_out ++ [leg], progress⟩

/-- `InternalBus.update_stop_times`: walk the legs before the Lodge
updating pickup and dropoff times, then clear the dirty flag and
return the directions. The external directions lookup is passed in as
`fetched`; a `MapError` from it propagates before any write happens (in
the source the exception is raised while computing `self.directions`,
ahead of the first `stoporder.save()`). -/
def Bus.update_stop_times (bus : Bus) (fetched : Except String (Stop → Stop → Int)) :
    Except String (Bus × List Leg) :=
  match fetched with
  | Except.error e => Except.error e
  | Except.ok dur =>
    let legs := bus.directions dur
    let ltl := legsToLodge bus legs
    let rest := legs.drop ltl.length
    (ltl.foldlM (stepLeg bus) ⟨bus.stoporders, [], bus.get_departure_time dur⟩).map
      fun st => ({ bus with stoporders := st.orders, dirty := false }, st.legs_out ++ rest)

/-- `StopOrder.time`: custom time verbatim when the bus uses custom
times; otherwise recompute (one provider call) when the bus is dirty
and re-read the refreshed row; otherwise the stored computed time. The
returned triple is (resulting bus state, reported time, number of
provider calls made). -/
def StopOrder.time (bus : Bus) (so : StopOrder) (fetched : Except String (Stop → Stop → Int)) :
    Except String (Bus × Option Int × Nat) :=
  if bus.use_custom_times then Except.ok (bus, so.custom_time, 0)
  else if bus.dirty then
    (bus.update_stop_times fetched).map fun r =>
      (r.1,
       match r.1.stoporders.find? (fun x => x.trip.id == so.trip.id && x.stop_type == so.stop_type) with
       | some x => x.computed_time
       | none => none,
       1)
  else Except.ok (bus, so.computed_time, 0)

/-- A leg of the chunked directions client: bracketing stops and the
provider's travel duration. -/
structure RawLeg where
  leg_start : Stop
  leg_end : Stop
  duration : Int
deriving DecidableEq, Repr

/-- One provider call on an ordered chunk of locations: a leg between
each consecutive pair, with the provider oracle's duration. -/
def providerLegs (dur : Stop → Stop → Int) : List Stop → List RawLeg
  | a :: b :: rest => ⟨a, b, dur a b⟩ :: providerLegs dur (b :: rest)
  | _ => []

/-- The provider's cap on intermediate waypoints per request. -/
def MAX_WAYPOINTS : Nat := 8

/-- Modelled from the spec: the request chunking of the directions
client (`fyt/transport/maps.py`, whose current source is not included;
the older `doc/transport/maps.py` still rejects oversized requests with
a TODO to recurse). A request takes an origin, at most `MAX_WAYPOINTS`
waypoints and a destination, so chunks hold at most `MAX_WAYPOINTS + 2`
stops and each chunk ends at the stop where the next chunk begins. -/
def chunkStops (stops : List Stop) : List (List Stop) :=
  if stops.length ≤ MAX_WAYPOINTS + 2 then [stops]
  else stops.take (MAX_WAYPOINTS + 2) :: chunkStops (stops.drop (MAX_WAYPOINTS + 1))
termination_by stops.length
decreasing_by
  simp only [List.length_drop]
  omega

/-- Modelled from the spec: `get_directions` of the directions client
(`fyt/transport/maps.py`, not included in the sources; its behavior is
fixed by the spec and by `fyt/transport/tests.py`): fewer than two
stops is an `InsufficientStopsError` (`MapError('Only one stop
provided')`), and larger requests are transparently chunked into
overlapping sub-calls whose legs are spliced into one sequence. -/
def get_directions (stops : List Stop) (dur : Stop → Stop → Int) :
    Except String (List RawLeg) :=
  if stops.length < 2 then Except.error "Only one stop provided"
  else Except.ok ((chunkStops stops).map (providerLegs dur)).flatten

/-- An itinerary with no obligations at all. -/
def Bus.no_obligations (bus : Bus) : Bool :=
  bus.dropping_off.isEmpty && bus.picking_up.isEmpty &&
    bus.returning.isEmpty && bus.stoporders.isEmpty

/-- Modelled from the spec: resolving an itinerary with zero
obligations is a no-op returning an empty leg list, not an error;
otherwise the directions client runs on the itinerary's stops. -/
def Bus.resolve_directions (bus : Bus) (dur : Stop → Stop → Int) :
    Except String (List RawLeg) :=
  if bus.no_obligations then Except.ok []
  else get_directions (bus.all_stops.map StopVisit.stop) dur

/-! ### Concrete scenario used by the witnesses

A small internal bus in the shape of the repository's own timing tests:
Hanover, one pickup stop, one dropoff stop and the Lodge. -/

/-- The Hanover anchor stop. -/
def exHanover : Stop := ⟨0, "Hanover, NH 03755", "", 0⟩

/-- An intermediate pickup stop. -/
def exPickupStop : Stop := ⟨1, "", "43.7577,-71.6934", 1⟩

/-- An intermediate dropoff stop. -/
def exDropoffStop : Stop := ⟨2, "Burlington, VT", "", 4⟩

/-- The Lodge anchor stop. -/
def exLodge : Stop := ⟨3, "", "43.9021,-71.8046", 100⟩

/-- A trip picked up at `exPickupStop`. -/
def exPickupTrip : Trip := ⟨1, 5, exHanover, exPickupStop⟩

/-- A trip dropped off at `exDropoffStop`. -/
def exDropoffTrip : Trip := ⟨2, 4, exDropoffStop, exHanover⟩

/-- The pickup stop order of `exPickupTrip`. -/
def exPickupOrder : StopOrder := ⟨exPickupTrip, StopType.PICKUP, 1, none, none⟩

/-- The dropoff stop order of `exDropoffTrip`. -/
def exDropoffOrder : StopOrder := ⟨exDropoffTrip, StopType.DROPOFF, 4, none, none⟩

/-- The example bus: drops off one trip, picks up another. -/
def exBus : Bus :=
  { dropping_off := [exDropoffTrip]
    picking_up := [exPickupTrip]
    returning := []
    hanover := exHanover
    lodge := exLodge
    stoporders := [exPickupOrder, exDropoffOrder]
    capacity := 30
    dirty := true
    use_custom_times := false }

/-- A provider oracle giving every leg one hour of travel. -/
def exDur : Stop → Stop → Int := fun _ _ => 60

/-- A bus with no obligations at all. -/
def exEmptyBus : Bus :=
  { dropping_off := []
    picking_up := []
    returning := []
    hanover := exHanover
    lodge := exLodge
    stoporders := []
    capacity := 30
    dirty := true
    use_custom_times := false }

/-!  ## Theorems for the claims -/

/-- C10: the location string used as input to the routing provider is
the `lat_lng` coordinates whenever they are nonempty, and the
plain-text address otherwise; a stop with both is geocoded by its
coordinates. -/
theorem claim_C10_location_prefers_coordinates (s : Stop) :
    (s.lat_lng ≠ "" → s.location = s.lat_lng) ∧
      (s.lat_lng = "" → s.location = s.address) := by
  constructor <;> intro h <;> simp [Stop.location, h]

/-- Witness for C10: a stop with both coordinates and an address is
geocoded by its coordinates. -/
theorem claim_C10_witness :
    ({ id := 7, address := "Hanover, NH 03755", lat_lng := "43.7030,-72.2895",
       distance := 3 } : Stop).location = "43.7030,-72.2895" :=
  (claim_C10_location_prefers_coordinates _).1 (by decide)

/-- C5: resolving a clean itinerary is idempotent and a no-op — with
`dirty = false` and `use_custom_times` unset, `StopOrder.time` returns
the stored computed time, leaves the bus untouched and makes zero
provider calls (so a second resolve returns the same value and also
makes zero calls). -/
theorem claim_C5_clean_resolve_noop (bus : Bus) (so : StopOrder)
    (fetched : Except String (Stop → Stop → Int))
    (h1 : bus.dirty = false) (h2 : bus.use_custom_times = false) :
    StopOrder.time bus so fetched = Except.ok (bus, so.computed_time, 0) := by
  simp [StopOrder.time, h1, h2]

/-- Witness for C5: a concrete clean bus reads back its stored
computed time with zero provider calls. -/
theorem claim_C5_witness :
    StopOrder.time { exBus with dirty := false }
        { exPickupOrder with computed_time := some 510 } (Except.ok exDur) =
      Except.ok ({ exBus with dirty := false }, some 510, 0) :=
  claim_C5_clean_resolve_noop _ _ _ rfl rfl

/-- C3: a failed directions lookup makes `update_stop_times` fail with
the provider's error before any stop-order write, leaving the caller's
state untouched; a successful result always carries `dirty = false`,
so only a fully successful recomputation cleans the bus. -/
theorem claim_C3_failed_resolve_atomic (bus : Bus) (e : String) :
    bus.update_stop_times (Except.error e) = Except.error e ∧
      (∀ fetched b legs, bus.update_stop_times fetched = Except.ok (b, legs) →
        b.dirty = false) := by
  refine ⟨rfl, ?_⟩
  intro fetched b legs h
  cases fetched with
  | error e' => simp [Bus.update_stop_times] at h
  | ok dur =>
    simp only [Bus.update_stop_times, Except.map] at h
    cases hfold : (legsToLodge bus (bus.directions dur)).foldlM (stepLeg bus)
        (⟨bus.stoporders, [], bus.get_departure_time dur⟩ : WalkState) with
    | error e' => rw [hfold] at h; simp at h
    | ok st =>
      rw [hfold] at h
      simp only [Except.ok.injEq] at h
      have := congrArg Prod.fst h
      simp at this
      rw [← this]

/-- Witness for C3: a provider timeout propagates unchanged out of a
concrete bus's `update_stop_times`, and a concrete successful
recomputation ends with `dirty = false`. -/
theorem claim_C3_witness :
    exEmptyBus.update_stop_times (Except.error "TransportError: timeout") =
        Except.error "TransportError: timeout" ∧
      Bus.dirty { exEmptyBus with dirty := false } = false :=
  ⟨(claim_C3_failed_resolve_atomic exEmptyBus "TransportError: timeout").1,
    (claim_C3_failed_resolve_atomic exEmptyBus "TransportError: timeout").2
      (Except.ok exDur) { exEmptyBus with dirty := false } [] (by rfl)⟩

/-- C8: calling the directions client with fewer than two stops is an
insufficient-stops error, while resolving an itinerary with zero
obligations is a no-op returning an empty leg list, not an error. -/
theorem claim_C8_insufficient_stops (stops : List Stop) (dur : Stop → Stop → Int) (bus : Bus) :
    (stops.length < 2 → get_directions stops dur = Except.error "Only one stop provided") ∧
      (bus.no_obligations = true → bus.resolve_directions dur = Except.ok []) := by
  constructor <;> intro h <;> simp [get_directions, Bus.resolve_directions, h]

/-- Witness for C8: a single-stop call errors; the empty bus resolves
to an empty leg list. -/
theorem claim_C8_witness :
    get_directions [exHanover] exDur = Except.error "Only one stop provided" ∧
      exEmptyBus.resolve_directions exDur = Except.ok [] :=
  ⟨(claim_C8_insufficient_stops [exHanover] exDur exEmptyBus).1 (by decide),
    (claim_C8_insufficient_stops [exHanover] exDur exEmptyBus).2 (by rfl)⟩

/-- C1: a bus that does not visit the Lodge departs at the default
07:30; a bus visiting the Lodge departs at 07:30 when that arrives at
the Lodge at or after 11:00, and otherwise departs at exactly 11:00
minus the travel-plus-loading duration to the Lodge, so the computed
arrival equals the 11:00 floor exactly. -/
theorem claim_C1_departure_floor (bus : Bus) (dur : Stop → Stop → Int) :
    (bus.visits_lodge = false → bus.get_departure_time dur = DEPARTURE_TIME) ∧
      (bus.visits_lodge = true →
        (MIN_LODGE_ARRIVAL_TIME ≤
            DEPARTURE_TIME + total_duration (legsToLodge bus (bus.directions dur)) →
          bus.get_departure_time dur = DEPARTURE_TIME) ∧
        (DEPARTURE_TIME + total_duration (legsToLodge bus (bus.directions dur)) <
            MIN_LODGE_ARRIVAL_TIME →
          bus.get_departure_time dur =
              MIN_LODGE_ARRIVAL_TIME -
                total_duration (legsToLodge bus (bus.directions dur)) ∧
            bus.get_departure_time dur +
                total_duration (legsToLodge bus (bus.directions dur)) =
              MIN_LODGE_ARRIVAL_TIME)) := by
  constructor
  · intro h
    simp [Bus.get_departure_time, h]
  · intro h
    refine ⟨?_, ?_⟩
    · intro hge
      have hn : ¬ (DEPARTURE_TIME +
          total_duration (legsToLodge bus (bus.directions dur)) <
            MIN_LODGE_ARRIVAL_TIME) := by omega
      simp [Bus.get_departure_time, h, hn]
    · intro hlt
      constructor
      · simp [Bus.get_departure_time, h, hlt]
      · simp [Bus.get_departure_time, h, hlt]

/-- A faster provider oracle under which the example bus would reach
the Lodge before 11:00. -/
def exDurShort : Stop → Stop → Int := fun _ _ => 10

/-- Witness for C1: the example bus under the fast oracle has 60
minutes of travel and loading to the Lodge, so it departs at 10:00
(600) and arrives exactly at 11:00 (660). -/
theorem claim_C1_witness :
    exBus.visits_lodge = true ∧
      exBus.get_departure_time exDurShort = 600 ∧
      exBus.get_departure_time exDurShort +
          total_duration (legsToLodge exBus (exBus.directions exDurShort)) = 660 := by
  have h2 := ((claim_C1_departure_floor exBus exDurShort).2 rfl).2 (by decide)
  exact ⟨rfl, by rw [h2.1]; decide, h2.2⟩

/-- The running passenger load after each stop of the walk, starting
from `load`: pickups add trip sizes, dropoffs subtract them. -/
def runningLoads (load : Int) : List StopVisit → List Int
  | [] => []
  | v :: rest => (load + stopLoadDelta v) :: runningLoads (load + stopLoadDelta v) rest

/-- The early-returning capacity loop equals checking every running
load. -/
theorem overCapacityGo_eq_any (capacity : Nat) (load : Int) (l : List StopVisit) :
    overCapacityGo capacity load l =
      (runningLoads load l).any (fun x => decide ((capacity : Int) < x)) := by
  induction l generalizing load with
  | nil => rfl
  | cons v rest ih =>
    simp only [overCapacityGo, runningLoads, List.any_cons]
    by_cases h : (capacity : Int) < load + stopLoadDelta v
    · simp [h]
    · simp [h, ih]

/-- C4: `over_capacity` returns `true` iff, walking the stops in order
and netting each stop's pickups (added) against its dropoffs
(subtracted), the running load strictly exceeds the vehicle capacity
after some stop; a load exactly equal to the capacity is not over
capacity, and one offending stop suffices. -/
theorem claim_C4_over_capacity_iff (bus : Bus) :
    bus.over_capacity = true ↔
      ∃ x ∈ runningLoads 0 bus.all_stops, (bus.capacity : Int) < x := by
  rw [Bus.over_capacity, overCapacityGo_eq_any]
  simp [List.any_eq_true]

/-- The ordering the claim asserts for `sort_by_distance`: ascending
distance with ties broken by the stop identifier. -/
def sortedByDistanceThenId (l : List Stop) : Prop :=
  l.Pairwise fun a b =>
    a.distance < b.distance ∨ (a.distance = b.distance ∧ a.id ≤ b.id)

/-- Counterexample for C9: two stops of equal distance stay in input
order, so the stop with the larger identifier can come first and the
claimed identifier tie-break does not hold. -/
theorem claim_C9_counterexample :
    sort_by_distance [⟨2, "", "b", 5⟩, ⟨1, "", "a", 5⟩] =
        [⟨2, "", "b", 5⟩, ⟨1, "", "a", 5⟩] ∧
      ¬ sortedByDistanceThenId
        (sort_by_distance [⟨2, "", "b", 5⟩, ⟨1, "", "a", 5⟩]) := by
  constructor
  · rfl
  · intro h
    rcases List.pairwise_cons.mp h with ⟨h1, -⟩
    have := h1 ⟨1, "", "a", 5⟩ (by simp [sort_by_distance, List.insertionSort,
      List.orderedInsert, distLE])
    simp at this

/-- Filtering one distance value commutes with an ordered insert: an
inserted stop of that distance lands at the front of the filtered
list, because every stop it was inserted after has a strictly smaller
distance. -/
theorem filter_orderedInsert (d : Nat) (a : Stop) (l : List Stop) :
    (List.orderedInsert distLE a l).filter (fun s => s.distance == d) =
      if a.distance = d then a :: l.filter (fun s => s.distance == d)
      else l.filter (fun s => s.distance == d) := by
  induction l with
  | nil =>
    by_cases h : a.distance = d <;> simp [List.orderedInsert, List.filter_cons, h]
  | cons b t ih =>
    simp only [List.orderedInsert]
    by_cases hab : distLE a b
    · rw [if_pos hab]
      by_cases h : a.distance = d <;> simp [List.filter_cons, h]
    · rw [if_neg hab]
      by_cases h : a.distance = d
      · have hbd : ¬ (b.distance = d) := by
          simp only [distLE, not_le] at hab
          omega
        simp [List.filter_cons, hbd, ih, h]
      · by_cases hb : b.distance = d <;> simp [List.filter_cons, hb, ih, h]

/-- C9 (amended): `sort_by_distance` returns a permutation of its
input in non-decreasing distance order, and stops of equal distance
keep their input order (Python's `sorted` is stable) — they are not
reordered by identifier. -/
theorem claim_C9_amended_stable_distance_sort (stops : List Stop) :
    (sort_by_distance stops).Sorted distLE ∧
      (sort_by_distance stops).Perm stops ∧
      ∀ d, (sort_by_distance stops).filter (fun s => s.distance == d) =
        stops.filter (fun s => s.distance == d) := by
  refine ⟨List.sorted_insertionSort distLE stops, List.perm_insertionSort distLE stops, ?_⟩
  intro d
  induction stops with
  | nil => rfl
  | cons a t ih =>
    simp only [sort_by_distance, List.insertionSort] at *
    rw [filter_orderedInsert]
    by_cases h : a.distance = d
    · simp [List.filter_cons, h, ih]
    · simp [List.filter_cons, h, ih]

/-- Every group key produced by `groupRunsGo` is either the seed key
or the stop of one of the remaining stop orders. -/
theorem groupRunsGo_fst_mem (s : Stop) (acc : List StopOrder) (l : List StopOrder) :
    ∀ g ∈ groupRunsGo s acc l, g.1 = s ∨ ∃ so ∈ l, so.stop = g.1 := by
  induction l generalizing s acc with
  | nil =>
    intro g hg
    simp only [groupRunsGo, List.mem_singleton] at hg
    exact Or.inl (by rw [hg])
  | cons so rest ih =>
    intro g hg
    simp only [groupRunsGo] at hg
    by_cases h : (so.stop.id == s.id) = true
    · rw [if_pos h] at hg
      rcases ih s (so :: acc) g hg with h1 | ⟨so', hso', h2⟩
      · exact Or.inl h1
      · exact Or.inr ⟨so', List.mem_cons_of_mem _ hso', h2⟩
    · rw [if_neg h] at hg
      rcases List.mem_cons.mp hg with h1 | h1
      · exact Or.inl (by rw [h1])
      · rcases ih so.stop [so] g h1 with h2 | ⟨so', hso', h2⟩
        · exact Or.inr ⟨so, List.mem_cons_self _ _, h2.symm⟩
        · exact Or.inr ⟨so', List.mem_cons_of_mem _ hso', h2⟩

/-- Every group key of `groupRuns` is the stop of one of the grouped
stop orders. -/
theorem groupRuns_fst_mem (l : List StopOrder) :
    ∀ g ∈ groupRuns l, ∃ so ∈ l, so.stop = g.1 := by
  cases l with
  | nil => intro g hg; simp [groupRuns] at hg
  | cons so rest =>
    intro g hg
    rcases groupRunsGo_fst_mem so.stop [so] rest g hg with h1 | ⟨so', hso', h2⟩
    · exact ⟨so, List.mem_cons_self _ _, h1.symm⟩
    · exact ⟨so', List.mem_cons_of_mem _ hso', h2⟩

/-- C6: provided the anchors are distinct stops and no stop order sits
at an anchor, `all_stops` starts with a synthetic Hanover visit that
picks up every dropped-off trip, contains the Lodge exactly when the
bus has a pickup or return trip, makes a second Hanover visit exactly
when there are return trips, and then ends with a Hanover visit
dropping off the returning trips. -/
theorem claim_C6_all_stops_structure (bus : Bus)
    (hHL : bus.hanover.id ≠ bus.lodge.id)
    (hmids : ∀ so ∈ bus.stoporders,
      so.stop.id ≠ bus.lodge.id ∧ so.stop.id ≠ bus.hanover.id) :
    bus.all_stops.head? =
        some { stop := bus.hanover, trips_picked_up := bus.dropping_off,
               trips_dropped_off := [] } ∧
      ((∃ v ∈ bus.all_stops, v.stop.id = bus.lodge.id) ↔
        (bus.picking_up ≠ [] ∨ bus.returning ≠ [])) ∧
      (bus.all_stops.countP (fun v => v.stop.id == bus.hanover.id) =
        if bus.returning.isEmpty then 1 else 2) ∧
      (bus.returning ≠ [] →
        bus.all_stops.getLast? =
          some { stop := bus.hanover, trips_picked_up := [],
                 trips_dropped_off := bus.returning }) := by
  have hmid : ∀ v ∈ (groupRuns bus.stoporders).map (fun g =>
      ({ stop := g.1,
         trips_picked_up := (g.2.filter StopOrder.is_pickup).map StopOrder.trip,
         trips_dropped_off := (g.2.filter StopOrder.is_dropoff).map StopOrder.trip } :
        StopVisit)),
      v.stop.id ≠ bus.lodge.id ∧ v.stop.id ≠ bus.hanover.id := by
    intro v hv
    rcases List.mem_map.mp hv with ⟨g, hg, rfl⟩
    rcases groupRuns_fst_mem _ g hg with ⟨so, hso, hstop⟩
    exact hstop ▸ hmids so hso
  simp only [Bus.all_stops]
  generalize hM : (groupRuns bus.stoporders).map (fun g =>
      ({ stop := g.1,
         trips_picked_up := (g.2.filter StopOrder.is_pickup).map StopOrder.trip,
         trips_dropped_off := (g.2.filter StopOrder.is_dropoff).map StopOrder.trip } :
        StopVisit)) = M at hmid ⊢
  have hMcount : M.countP (fun v => v.stop.id == bus.hanover.id) = 0 := by
    rw [List.countP_eq_zero]
    intro v hv
    simpa using (hmid v hv).2
  have hMnolodge : ∀ v ∈ M, ¬ (v.stop.id = bus.lodge.id) := fun v hv => (hmid v hv).1
  have hLH : ¬ (bus.lodge.id = bus.hanover.id) := Ne.symm hHL
  cases hret : bus.returning.isEmpty with
  | true =>
    have hretNil : bus.returning = [] := List.isEmpty_iff.mp hret
    cases hvl : bus.visits_lodge with
    | true =>
      have hpick : bus.picking_up ≠ [] := by
        intro hc
        rw [Bus.visits_lodge, hc, hretNil] at hvl
        simp at hvl
      simp only [hret, hvl, if_true]
      refine ⟨by simp, ?_, ?_, ?_⟩
      · constructor
        · intro _
          exact Or.inl hpick
        · intro _
          exact ⟨{ stop := bus.lodge, trips_picked_up := bus.returning,
                   trips_dropped_off := bus.picking_up }, by simp, rfl⟩
      · simp [List.countP_append, List.countP_cons, hMcount, hLH]
      · intro hc
        exact absurd hretNil hc
    | false =>
      have hpickNil : bus.picking_up = [] := by
        rw [Bus.visits_lodge] at hvl
        simp only [Bool.or_eq_false_iff, Bool.not_eq_false'] at hvl
        exact List.isEmpty_iff.mp hvl.1
      simp only [hret, hvl, Bool.false_eq_true, if_true, if_false]
      refine ⟨by simp, ?_, ?_, ?_⟩
      · constructor
        · rintro ⟨v, hv, hlv⟩
          rcases List.mem_cons.mp hv with h1 | h1
          · rw [h1] at hlv
            exact absurd hlv hHL
          · exact absurd hlv (hMnolodge v h1)
        · rintro (h | h)
          · exact absurd hpickNil h
          · exact absurd hretNil h
      · simp [List.countP_cons, hMcount]
      · intro hc
        exact absurd hretNil hc
  | false =>
    have hretNe : bus.returning ≠ [] := by
      intro hc
      rw [hc] at hret
      simp at hret
    have hvl : bus.visits_lodge = true := by
      rw [Bus.visits_lodge]
      simp only [Bool.or_eq_true, Bool.not_eq_true']
      right
      rw [hret]
    simp only [hret, hvl, Bool.false_eq_true, if_true, if_false]
    refine ⟨by simp, ?_, ?_, ?_⟩
    · constructor
      · intro _
        exact Or.inr hretNe
      · intro _
        refine ⟨{ stop := bus.lodge, trips_picked_up := bus.returning,
                  trips_dropped_off := bus.picking_up }, by simp, rfl⟩
    · simp [List.countP_append, List.countP_cons, hMcount, hLH]
    · intro _
      rw [List.getLast?_concat]

/-- Witness for C6: the example bus starts at Hanover loading its
dropped-off trip, visits the Lodge (it has a pickup trip), and visits
Hanover exactly once (it has no returning trips). -/
theorem claim_C6_witness :
    exBus.all_stops.head? =
        some { stop := exHanover, trips_picked_up := [exDropoffTrip],
               trips_dropped_off := [] } ∧
      (∃ v ∈ exBus.all_stops, v.stop.id = exBus.lodge.id) ∧
      exBus.all_stops.countP (fun v => v.stop.id == exBus.hanover.id) = 1 := by
  have h := claim_C6_all_stops_structure exBus (by decide) (by decide)
  exact ⟨h.1, h.2.1.mpr (Or.inl (by decide)), by simpa using h.2.2.1⟩

/-- Indexing the legs of one provider call: leg `i` runs from stop `i`
to stop `i + 1`. -/
theorem providerLegs_getElem? (dur : Stop → Stop → Int) (l : List Stop) :
    ∀ i : Nat, (providerLegs dur l)[i]? =
      l[i]?.bind fun a => l[i+1]?.map fun b => (⟨a, b, dur a b⟩ : RawLeg) := by
  induction l with
  | nil => intro i; simp [providerLegs]
  | cons a t ih =>
    intro i
    cases t with
    | nil => cases i <;> simp [providerLegs]
    | cons b t' =>
      cases i with
      | zero => simp [providerLegs]
      | succ j => simpa [providerLegs] using ih j

/-- One provider call returns one leg fewer than its stops. -/
theorem providerLegs_length (dur : Stop → Stop → Int) (l : List Stop) :
    (providerLegs dur l).length = l.length - 1 := by
  induction l with
  | nil => rfl
  | cons a t ih =>
    cases t with
    | nil => rfl
    | cons b t' =>
      simp only [providerLegs, List.length_cons] at *
      omega

/-- Splicing two provider calls that overlap in one stop gives the
legs of the combined stop sequence. -/
theorem providerLegs_append_overlap (dur : Stop → Stop → Int) (l1 : List Stop) (x : Stop)
    (l2 : List Stop) :
    providerLegs dur (l1 ++ [x]) ++ providerLegs dur (x :: l2) =
      providerLegs dur (l1 ++ x :: l2) := by
  induction l1 with
  | nil => simp [providerLegs]
  | cons a t ih =>
    cases t with
    | nil => simp [providerLegs]
    | cons b t' =>
      simp only [List.cons_append, providerLegs] at ih ⊢
      congr 1

/-- Splicing all chunked sub-calls reproduces the legs of the full
request. -/
theorem chunkStops_flatten (dur : Stop → Stop → Int) (stops : List Stop) :
    ((chunkStops stops).map (providerLegs dur)).flatten = providerLegs dur stops := by
  induction stops using chunkStops.induct with
  | case1 stops h =>
    rw [chunkStops, if_pos h]
    simp
  | case2 stops h ih =>
    rw [chunkStops, if_neg h]
    simp only [List.map_cons, List.flatten_cons, ih]
    have h9 : MAX_WAYPOINTS + 1 < stops.length := by
      simp only [MAX_WAYPOINTS] at *
      omega
    have htake : stops.take (MAX_WAYPOINTS + 2) =
        stops.take (MAX_WAYPOINTS + 1) ++ [stops.get ⟨MAX_WAYPOINTS + 1, h9⟩] := by
      rw [List.take_succ]
      simp [List.getElem?_eq_getElem h9]
    have hdrop : stops.drop (MAX_WAYPOINTS + 1) =
        stops.get ⟨MAX_WAYPOINTS + 1, h9⟩ :: stops.drop (MAX_WAYPOINTS + 2) := by
      rw [List.drop_eq_getElem_cons h9]
      simp [List.get_eq_getElem]
    rw [htake, hdrop, providerLegs_append_overlap]
    congr 1
    conv_rhs => rw [← List.take_append_drop (MAX_WAYPOINTS + 1) stops, hdrop]

/-- C2: for at least two stops, the chunked directions client returns
exactly one leg per consecutive stop pair — `N - 1` legs for `N`
stops, leg `i` running from stop `i` to stop `i + 1` — and each leg
starts where the previous leg ends, also when the request was split
into overlapping chunks. -/
theorem claim_C2_chunked_directions (stops : List Stop) (dur : Stop → Stop → Int)
    (h : 2 ≤ stops.length) :
    ∃ legs, get_directions stops dur = Except.ok legs ∧
      legs.length = stops.length - 1 ∧
      (∀ i, i < legs.length →
        legs[i]?.map RawLeg.leg_start = stops[i]? ∧
          legs[i]?.map RawLeg.leg_end = stops[i+1]?) ∧
      (∀ i, i + 1 < legs.length →
        legs[i+1]?.map RawLeg.leg_start = legs[i]?.map RawLeg.leg_end) := by
  refine ⟨providerLegs dur stops, ?_, providerLegs_length dur stops, ?_, ?_⟩
  · simp only [get_directions]
    rw [if_neg (by omega), chunkStops_flatten]
  · intro i hi
    have hlen := providerLegs_length dur stops
    have hi1 : i < stops.length := by omega
    have hi2 : i + 1 < stops.length := by omega
    rw [providerLegs_getElem?, List.getElem?_eq_getElem hi1, List.getElem?_eq_getElem hi2]
    simp
  · intro i hi
    have hlen := providerLegs_length dur stops
    have hi0 : i < stops.length := by omega
    have hi1 : i + 1 < stops.length := by omega
    have hi2 : i + 2 < stops.length := by omega
    rw [providerLegs_getElem?, providerLegs_getElem?,
      List.getElem?_eq_getElem hi0, List.getElem?_eq_getElem hi1,
      List.getElem?_eq_getElem hi2]
    simp

/-- Witness for C2: the chunked client on a concrete three-stop route
returns two consecutive, matching legs. -/
theorem claim_C2_witness :
    ∃ legs, get_directions [exHanover, exPickupStop, exLodge] exDur = Except.ok legs ∧
      legs.length = [exHanover, exPickupStop, exLodge].length - 1 ∧
      (∀ i, i < legs.length →
        legs[i]?.map RawLeg.leg_start = [exHanover, exPickupStop, exLodge][i]? ∧
          legs[i]?.map RawLeg.leg_end = [exHanover, exPickupStop, exLodge][i+1]?) ∧
      (∀ i, i + 1 < legs.length →
        legs[i+1]?.map RawLeg.leg_start = legs[i]?.map RawLeg.leg_end) :=
  claim_C2_chunked_directions [exHanover, exPickupStop, exLodge] exDur (by decide)

/-- The shape C7 claims for the legs around a stop with a custom time:
every leg starting or ending at that stop has null start and end
times. -/
def boundingLegsNull (legs : List Leg) (stopId : Nat) : Bool :=
  legs.all fun leg =>
    (!(leg.start_stop.stop.id == stopId) ||
      (leg.start_time == (none : Option Int) && leg.end_time == (none : Option Int))) &&
    (!(leg.end_stop.stop.id == stopId) ||
      (leg.start_time == (none : Option Int) && leg.end_time == (none : Option Int)))

/-- A pickup stop with an operator-supplied custom time. -/
def c7PickupStop : Stop := ⟨1, "", "43.7043,-72.2982", 1⟩

/-- The trip picked up at `c7PickupStop`. -/
def c7Trip : Trip := ⟨1, 3, exHanover, c7PickupStop⟩

/-- The pickup stop order of `c7Trip`, with custom time 13:00 (780). -/
def c7Order : StopOrder := ⟨c7Trip, StopType.PICKUP, 1, some 540, some 780⟩

/-- A bus using custom times whose single pickup has a custom time. -/
def c7Bus : Bus :=
  { dropping_off := []
    picking_up := [c7Trip]
    returning := []
    hanover := exHanover
    lodge := exLodge
    stoporders := [c7Order]
    capacity := 30
    dirty := false
    use_custom_times := true }

/-- Counterexample for C7: on a bus with `use_custom_times` and a
custom-timed pickup stop, `update_stop_times` gives the leg leaving
that stop the custom time itself as its start time, so the legs
bounding the stop do not all carry null start/end times. -/
theorem claim_C7_counterexample :
    c7Bus.use_custom_times = true ∧
      c7Order.custom_time = some 780 ∧
      (c7Bus.update_stop_times (Except.ok exDur)).map
          (fun r => boundingLegsNull r.2 c7Order.stop.id) = Except.ok false := by
  refine ⟨rfl, rfl, ?_⟩
  rfl

/-- Writing a computed time never changes any custom time. -/
theorem getCustomTime_setComputed (orders : List StopOrder) (t : Trip) (ty : StopType)
    (v : Option Int) (t' : Trip) :
    getCustomTime (setComputed orders t ty v) t' = getCustomTime orders t' := by
  induction orders with
  | nil => rfl
  | cons so rest ih =>
    simp only [setComputed, List.map_cons, getCustomTime, List.find?_cons] at ih ⊢
    by_cases hmatch : (so.trip.id == t.id && so.stop_type == ty) = true
    · rw [if_pos hmatch]
      by_cases hp : (so.trip.id == t'.id && so.stop_type == StopType.PICKUP) = true
      · simp [hp]
      · simp only [hp]
        exact ih
    · rw [if_neg hmatch]
      by_cases hp : (so.trip.id == t'.id && so.stop_type == StopType.PICKUP) = true
      · simp [hp]
      · simp only [hp]
        exact ih

/-- A whole fold of computed-time writes never changes any custom
time. -/
theorem getCustomTime_foldl_setComputed (trips : List Trip) (orders : List StopOrder)
    (ty : StopType) (v : Option Int) (t' : Trip) :
    getCustomTime
        (trips.foldl (fun os t => setComputed os t ty v) orders) t' =
      getCustomTime orders t' := by
  induction trips generalizing orders with
  | nil => rfl
  | cons a rest ih =>
    simp only [List.foldl_cons]
    rw [ih, getCustomTime_setComputed]

/-- The shape `update_stop_times` actually gives a leg under
`use_custom_times`: no end time, and a start time that is either
absent or the verbatim custom time of one of the start stop's
picked-up trips. -/
def customLegOK (orders : List StopOrder) (leg : Leg) : Prop :=
  leg.end_time = none ∧
    (leg.start_time = none ∨
      ∃ t ∈ leg.start_stop.trips_picked_up, leg.start_time = getCustomTime orders t)

/-- Reduction of a successful `Except` bind. -/
theorem ok_bind {α β : Type} (a : α) (f : α → Except String β) :
    ((Except.ok a : Except String α) >>= f) = f a := rfl

/-- Reduction of a failed `Except` bind. -/
theorem error_bind {α β : Type} (e : String) (f : α → Except String β) :
    ((Except.error e : Except String α) >>= f) = Except.error e := rfl

/-- Effect of one loop iteration under `use_custom_times`: custom
times are untouched, and the appended leg satisfies `customLegOK`. -/
theorem stepLeg_custom (bus : Bus) (st : WalkState) (leg : Leg)
    (hc : bus.use_custom_times = true)
    (hleg : leg.start_time = none ∧ leg.end_time = none) :
    ∀ st', stepLeg bus st leg = Except.ok st' →
      (∀ t', getCustomTime st'.orders t' = getCustomTime st.orders t') ∧
      ∃ leg', st'.legs_out = st.legs_out ++ [leg'] ∧
        leg'.start_stop = leg.start_stop ∧
        customLegOK st.orders leg' := by
  intro st' hstep
  simp only [stepLeg, hc, if_true] at hstep
  by_cases hsh : (leg.start_stop.stop.id == bus.hanover.id) = true
  · simp only [hsh, if_true, ok_bind, pure_bind, pure, Except.pure, Except.ok.injEq] at hstep
    rw [← hstep]
    constructor
    · intro t'
      by_cases heh : (leg.end_stop.stop.id == bus.lodge.id) = true <;>
        simp [heh, getCustomTime_foldl_setComputed]
    · exact ⟨leg, rfl, rfl, hleg.2, Or.inl hleg.1⟩
  · simp only [hsh, Bool.false_eq_true, if_false] at hstep
    rcases hdedup : ((leg.start_stop.trips_picked_up.map
        (getCustomTime (leg.start_stop.trips_picked_up.foldl
          (fun os t => setComputed os t StopType.PICKUP
            (some (timeOfDay st.progress))) st.orders))).dedup) with _ | ⟨c, _ | ⟨c2, cs⟩⟩
    · rw [hdedup] at hstep
      simp only [ok_bind, pure_bind, pure, Except.pure, Except.ok.injEq] at hstep
      rw [← hstep]
      constructor
      · intro t'
        by_cases heh : (leg.end_stop.stop.id == bus.lodge.id) = true <;>
          simp [heh, getCustomTime_foldl_setComputed]
      · exact ⟨leg, rfl, rfl, hleg.2, Or.inl hleg.1⟩
    · rw [hdedup] at hstep
      simp only [ok_bind, pure_bind, pure, Except.pure, Except.ok.injEq] at hstep
      have hcmem : c ∈ (leg.start_stop.trips_picked_up.map
          (getCustomTime (leg.start_stop.trips_picked_up.foldl
            (fun os t => setComputed os t StopType.PICKUP
              (some (timeOfDay st.progress))) st.orders))) := by
        have hm : c ∈ [c] := List.mem_singleton.mpr rfl
        rw [← hdedup] at hm
        exact List.mem_dedup.mp hm
      rcases List.mem_map.mp hcmem with ⟨t, ht, hct⟩
      rw [getCustomTime_foldl_setComputed] at hct
      rw [← hstep]
      constructor
      · intro t'
        by_cases heh : (leg.end_stop.stop.id == bus.lodge.id) = true <;>
          simp [heh, getCustomTime_foldl_setComputed]
      · exact ⟨{ leg with start_time := c }, rfl, rfl, hleg.2, Or.inr ⟨t, ht, hct.symm⟩⟩
    · rw [hdedup] at hstep
      simp only [error_bind] at hstep
      cases hstep

/-- Fresh provider legs carry no times. -/
theorem consecLegs_times_none (dur : Stop → Stop → Int) :
    ∀ l : List StopVisit, ∀ leg ∈ consecLegs dur l,
      leg.start_time = none ∧ leg.end_time = none := by
  intro l
  induction l with
  | nil => intro leg hm; simp [consecLegs] at hm
  | cons a t ih =>
    cases t with
    | nil => intro leg hm; simp [consecLegs] at hm
    | cons b t' =>
      intro leg hm
      rcases List.mem_cons.mp hm with h1 | h1
      · rw [h1]
        exact ⟨rfl, rfl⟩
      · exact ih leg h1

/-- Walking any list of fresh legs under `use_custom_times` leaves
custom times untouched and appends only `customLegOK` legs. -/
theorem foldlM_stepLeg_custom (bus : Bus) (hc : bus.use_custom_times = true) :
    ∀ (legs : List Leg) (st : WalkState),
      (∀ leg ∈ legs, leg.start_time = none ∧ leg.end_time = none) →
      ∀ st', legs.foldlM (stepLeg bus) st = Except.ok st' →
        (∀ t', getCustomTime st'.orders t' = getCustomTime st.orders t') ∧
        ∀ leg' ∈ st'.legs_out, leg' ∈ st.legs_out ∨ customLegOK st.orders leg' := by
  intro legs
  induction legs with
  | nil =>
    intro st _ st' h
    simp only [List.foldlM_nil, pure, Except.pure, Except.ok.injEq] at h
    rw [← h]
    exact ⟨fun t' => rfl, fun leg' hl => Or.inl hl⟩
  | cons leg rest ih =>
    intro st hnone st' h
    rw [List.foldlM_cons] at h
    cases hstep : stepLeg bus st leg with
    | error e =>
      rw [hstep, error_bind] at h
      cases h
    | ok st1 =>
      rw [hstep, ok_bind] at h
      obtain ⟨hcust1, leg1, hlegs1, hss1, hok1⟩ :=
        stepLeg_custom bus st leg hc (hnone leg (by simp)) st1 hstep
      obtain ⟨hcust2, hmem2⟩ := ih st1 (fun l hl => hnone l (by simp [hl])) st' h
      refine ⟨fun t' => (hcust2 t').trans (hcust1 t'), ?_⟩
      intro leg' hl'
      rcases hmem2 leg' hl' with hin | hok
      · rw [hlegs1] at hin
        rcases List.mem_append.mp hin with hin | hin
        · exact Or.inl hin
        · right
          have heq : leg' = leg1 := by simpa using hin
          rw [heq]
          exact hok1
      · right
        rcases hok with ⟨he, hs⟩
        refine ⟨he, ?_⟩
        rcases hs with hs | ⟨t, ht, hts⟩
        · exact Or.inl hs
        · exact Or.inr ⟨t, ht, by rw [hts, hcust1 t]⟩

/-- C7 (amended): with `use_custom_times` set, `StopOrder.time`
returns the stored custom time verbatim, with no provider call and no
state change; `update_stop_times` still runs, and every leg it
returns has a null end time and a start time that is either null or
the verbatim custom time of one of the trips picked up at the leg's
start stop — never a time fabricated from the leg durations. -/
theorem claim_C7_amended_custom_times (bus : Bus) (so : StopOrder)
    (fetched : Except String (Stop → Stop → Int))
    (h : bus.use_custom_times = true) :
    StopOrder.time bus so fetched = Except.ok (bus, so.custom_time, 0) ∧
      ∀ b legs, bus.update_stop_times fetched = Except.ok (b, legs) →
        ∀ leg ∈ legs, customLegOK bus.stoporders leg := by
  constructor
  · simp [StopOrder.time, h]
  · intro b legs hup leg hleg
    cases fetched with
    | error e => simp [Bus.update_stop_times] at hup
    | ok dur =>
      simp only [Bus.update_stop_times] at hup
      cases hfold : (legsToLodge bus (bus.directions dur)).foldlM (stepLeg bus)
          (⟨bus.stoporders, [], bus.get_departure_time dur⟩ : WalkState) with
      | error e =>
        rw [hfold] at hup
        simp [Except.map] at hup
      | ok st =>
        rw [hfold] at hup
        simp only [Except.map, Except.ok.injEq, Prod.mk.injEq] at hup
        obtain ⟨-, hl⟩ := hup
        rw [← hl] at hleg
        have hnone_dir : ∀ l ∈ bus.directions dur,
            l.start_time = none ∧ l.end_time = none :=
          consecLegs_times_none dur _
        rcases List.mem_append.mp hleg with hmem | hmem
        · obtain ⟨-, hall⟩ := foldlM_stepLeg_custom bus h
            (legsToLodge bus (bus.directions dur))
            ⟨bus.stoporders, [], bus.get_departure_time dur⟩
            (fun l hl' => hnone_dir l ((List.takeWhile_sublist _).subset hl'))
            st hfold
          rcases hall leg hmem with hin | hok
          · simp at hin
          · exact hok
        · have hn := hnone_dir leg (List.mem_of_mem_drop hmem)
          exact ⟨hn.2, Or.inl hn.1⟩

/-- Witness for C7 (amended): the concrete custom-times bus reports
the 13:00 custom time verbatim with zero provider calls. -/
theorem claim_C7_witness :
    StopOrder.time c7Bus c7Order (Except.ok exDur) =
      Except.ok (c7Bus, some 780, 0) :=
  (claim_C7_amended_custom_times c7Bus c7Order (Except.ok exDur) rfl).1

end Transport
